import Mathlib

/-!
Shallow embedding of the Jailhouse loader driver (driver.c) and proofs about
its enable / disable / cell-create / cell-destroy operations.

The driver keeps five pieces of global mutable state: the `enabled` flag, the
mapped hypervisor memory region (`hypervisor_mem`, modelled as a Boolean
`mapped`), the `offlined_cpus` mask, the list of registered cells, and the
set of CPUs currently online in the host kernel.  External collaborators
(copy_from_user, kmalloc, the mutex, request_firmware, ioremap, cpu_down,
cpu_up, and the hypercalls into the hypervisor) are modelled as injected
outcomes carried in the argument records of each operation; the control flow
and every state update are translated directly from the C source.

The `claimed` and `isRoot` fields of `Cell` are ghost data: the C `struct
cell` stores only the kobject name and the numeric id, and no operation ever
reads these two fields.  They record, for specification purposes only, the
CPU set the creating configuration claimed and whether the cell is the root
cell registered by enable.
-/

set_option maxRecDepth 8000

/-- PAGE_SIZE on the architectures the driver targets. -/
def PAGE_SIZE : Nat := 4096

/-- JAILHOUSE_CELL_NAME_MAXLEN: writing a NUL at this index truncates names. -/
def NAME_MAXLEN : Nat := 31

/-- Modulus of the 64-bit unsigned long and size_t arithmetic of the driver. -/
def U64 : Nat := 2 ^ 64

/-- PAGE_ALIGN from the kernel: round up to the next page boundary.  The
macro is evaluated in wrapping unsigned long arithmetic, so the addition of
PAGE_SIZE - 1 wraps modulo 2^64 before the mask is applied. -/
def PAGE_ALIGN (x : Nat) : Nat := (((x + PAGE_SIZE - 1) % U64) / PAGE_SIZE) * PAGE_SIZE

/-- The size_t subtraction a - b as the C code computes it (wrapping). -/
def subU64 (a b : Nat) : Nat := (a + (U64 - b % U64)) % U64

def EFAULT : Int := 14
def EINTR : Int := 4
def EBUSY : Int := 16
def EINVAL : Int := 22
def ENOMEM : Int := 12
def EEXIST : Int := 17
def ENOENT : Int := 2

/-- A registered cell: kobject name and hypervisor-assigned id, plus the two
ghost fields described in the module docstring. -/
structure Cell where
  name : List Char
  id : Int
  claimed : Finset Nat
  isRoot : Bool
deriving DecidableEq

/-- The global mutable state of the driver module. -/
structure DriverState where
  enabled : Bool
  mapped : Bool
  offlined_cpus : Finset Nat
  cells : List Cell
  online : Finset Nat
deriving DecidableEq

/-- A cell descriptor as decoded from the configuration blob: the name and
the claimed CPU set (the bitmap decoded to its list of set bits, in
increasing order as for_each_cell_cpu iterates them). -/
structure CellDesc where
  name : List Char
  cpus : List Nat
deriving DecidableEq

/-- One entry of the jailhouse_memory region list of a cell configuration. -/
structure JMemRegion where
  phys_start : Nat
  virt_start : Nat
  size : Nat
deriving DecidableEq

/-- A preload image descriptor, together with the injected outcomes of the
external collaborators load_image consults (copy_from_user of the
descriptor, the transient ioremap, copy_from_user of the payload). -/
structure PreloadImage where
  target_address : Nat
  size : Nat
  descCopyOk : Bool
  mapOk : Bool
  copyOk : Bool
deriving DecidableEq

/-- Truncation performed by writing a NUL at index JAILHOUSE_CELL_NAME_MAXLEN. -/
def truncName (s : List Char) : List Char := s.take NAME_MAXLEN

/-- find_cell from driver.c: first registered cell whose name matches. -/
def find_cell (cs : List Cell) (n : List Char) : Option Cell :=
  cs.find? (fun c => c.name == n)

/-- delete_cell resolved through find_cell: remove the first cell with the
given name from the registry list. -/
def delete_cell (cs : List Cell) (n : List Char) : List Cell :=
  match cs with
  | [] => []
  | c :: rest => if c.name == n then rest else c :: delete_cell rest n

/-- load_image from driver.c: resolve the image target against the declared
memory regions (first region containing the target address wins, with the
bound check inside the match), then map, copy, unmap. -/
def load_image (regions : List JMemRegion) (img : PreloadImage) : Int :=
  if !img.descCopyOk then -EFAULT
  else
    match regions.find? (fun m =>
        decide (m.virt_start ≤ img.target_address) &&
        decide (img.target_address - m.virt_start < m.size)) with
    | none => -EINVAL
    | some m =>
      if img.size > m.size - (img.target_address - m.virt_start) then -EINVAL
      else if !img.mapOk then -EBUSY
      else if !img.copyOk then -EFAULT
      else 0

/-- The preload-image loop of jailhouse_cell_create: err is assigned the
result of each load_image call and any nonzero result aborts.  Returns the
final value of err and whether the loop aborted. -/
def processImages (regions : List JMemRegion) : List PreloadImage → Int → Int × Bool
  | [], err => (err, false)
  | img :: rest, _ =>
    if load_image regions img ≠ 0 then (load_image regions img, true)
    else processImages regions rest (load_image regions img)

/-- Result of the CPU-withdrawal loop of jailhouse_cell_create. -/
structure WithdrawOut where
  st : DriverState
  err : Int
  downs : List Nat
  failed : Bool
deriving DecidableEq

/-- The for_each_cell_cpu withdrawal loop of jailhouse_cell_create: each
online claimed CPU is taken down (err = cpu_down(cpu); abort on nonzero) and
recorded in offlined_cpus as it happens; offline claimed CPUs are skipped. -/
def withdraw_loop (d : Nat → Int) : List Nat → DriverState → Int → List Nat → WithdrawOut
  | [], st, err, downs => ⟨st, err, downs, false⟩
  | cpu :: rest, st, err, downs =>
    if cpu ∈ st.online then
      if d cpu ≠ 0 then ⟨st, d cpu, downs ++ [cpu], true⟩
      else withdraw_loop d rest
        { st with online := st.online.erase cpu,
                  offlined_cpus := insert cpu st.offlined_cpus }
        (d cpu) (downs ++ [cpu])
    else withdraw_loop d rest st err downs

/-- The error_cpu_online rollback loop of jailhouse_cell_create: every
claimed CPU that is not online is brought up, and cleared from
offlined_cpus only when cpu_up succeeded. -/
def rollback_cpus (u : Nat → Int) : List Nat → DriverState → DriverState
  | [], st => st
  | cpu :: rest, st =>
    if cpu ∈ st.online then rollback_cpus u rest st
    else if u cpu = 0 then
      rollback_cpus u rest
        { st with online := insert cpu st.online,
                  offlined_cpus := st.offlined_cpus.erase cpu }
    else rollback_cpus u rest st

/-- Arguments and injected collaborator outcomes of jailhouse_cell_create.
junk is the indeterminate initial value of the uninitialized local err. -/
structure CreateArgs where
  paramsCopyOk : Bool
  kmallocOk : Bool
  configCopyOk : Bool
  lockOk : Bool
  config : CellDesc
  regions : List JMemRegion
  images : List PreloadImage
  cellAllocOk : Bool
  downRes : Nat → Int
  upRes : Nat → Int
  hvResult : Int
  junk : Int

/-- Result of jailhouse_cell_create: return value, final state, whether the
cell-create hypercall was issued, and the CPUs cpu_down was attempted on. -/
structure CreateOut where
  ret : Int
  st : DriverState
  hvCalled : Bool
  downs : List Nat
deriving DecidableEq

/-- jailhouse_cell_create from driver.c. -/
def jailhouse_cell_create (st : DriverState) (a : CreateArgs) : CreateOut :=
  if !a.paramsCopyOk then ⟨-EFAULT, st, false, []⟩
  else if !a.kmallocOk then ⟨-ENOMEM, st, false, []⟩
  else if !a.configCopyOk then ⟨-EFAULT, st, false, []⟩
  else if !a.lockOk then ⟨-EINTR, st, false, []⟩
  else if !st.enabled then ⟨-EINVAL, st, false, []⟩
  else if (find_cell st.cells (truncName a.config.name)).isSome then
    ⟨-EEXIST, st, false, []⟩
  else if (processImages a.regions a.images a.junk).2 then
    ⟨(processImages a.regions a.images a.junk).1, st, false, []⟩
  else if !a.cellAllocOk then ⟨-ENOMEM, st, false, []⟩
  else if (withdraw_loop a.downRes a.config.cpus st
      (processImages a.regions a.images a.junk).1 []).failed then
    ⟨(withdraw_loop a.downRes a.config.cpus st
        (processImages a.regions a.images a.junk).1 []).err,
     rollback_cpus a.upRes a.config.cpus
       (withdraw_loop a.downRes a.config.cpus st
         (processImages a.regions a.images a.junk).1 []).st,
     false,
     (withdraw_loop a.downRes a.config.cpus st
       (processImages a.regions a.images a.junk).1 []).downs⟩
  else if a.hvResult < 0 then
    ⟨a.hvResult,
     rollback_cpus a.upRes a.config.cpus
       (withdraw_loop a.downRes a.config.cpus st
         (processImages a.regions a.images a.junk).1 []).st,
     true,
     (withdraw_loop a.downRes a.config.cpus st
       (processImages a.regions a.images a.junk).1 []).downs⟩
  else
    ⟨(withdraw_loop a.downRes a.config.cpus st
        (processImages a.regions a.images a.junk).1 []).err,
     { (withdraw_loop a.downRes a.config.cpus st
          (processImages a.regions a.images a.junk).1 []).st with
       cells := (withdraw_loop a.downRes a.config.cpus st
          (processImages a.regions a.images a.junk).1 []).st.cells ++
         [⟨truncName a.config.name, a.hvResult, a.config.cpus.toFinset, false⟩] },
     true,
     (withdraw_loop a.downRes a.config.cpus st
       (processImages a.regions a.images a.junk).1 []).downs⟩

/-- Arguments and injected collaborator outcomes of jailhouse_cell_destroy. -/
structure DestroyArgs where
  paramsCopyOk : Bool
  kmallocOk : Bool
  configCopyOk : Bool
  lockOk : Bool
  config : CellDesc
  hvResult : Int
  upRes : Nat → Int

/-- Result of jailhouse_cell_destroy. -/
structure DestroyOut where
  ret : Int
  st : DriverState
  hvCalled : Bool
deriving DecidableEq

/-- The for_each_cell_cpu loop at the end of jailhouse_cell_destroy: every
CPU of the caller-supplied configuration that is in offlined_cpus is brought
up (a failure is only logged) and cleared from offlined_cpus in all cases. -/
def destroy_cpu_loop (u : Nat → Int) : List Nat → DriverState → DriverState
  | [], st => st
  | cpu :: rest, st =>
    if cpu ∈ st.offlined_cpus then
      if u cpu = 0 then
        destroy_cpu_loop u rest
          { st with online := insert cpu st.online,
                    offlined_cpus := st.offlined_cpus.erase cpu }
      else destroy_cpu_loop u rest
        { st with offlined_cpus := st.offlined_cpus.erase cpu }
    else destroy_cpu_loop u rest st

/-- jailhouse_cell_destroy from driver.c. -/
def jailhouse_cell_destroy (st : DriverState) (a : DestroyArgs) : DestroyOut :=
  if !a.paramsCopyOk then ⟨-EFAULT, st, false⟩
  else if !a.kmallocOk then ⟨-ENOMEM, st, false⟩
  else if !a.configCopyOk then ⟨-EFAULT, st, false⟩
  else if !a.lockOk then ⟨-EINTR, st, false⟩
  else if !st.enabled then ⟨-EINVAL, st, false⟩
  else
    match find_cell st.cells (truncName a.config.name) with
    | none => ⟨-ENOENT, st, false⟩
    | some _ =>
      if a.hvResult ≠ 0 then ⟨a.hvResult, st, true⟩
      else
        ⟨0, destroy_cpu_loop a.upRes a.config.cpus
              { st with cells := delete_cell st.cells (truncName a.config.name) },
         true⟩

/-- Last-writer-wins aggregation of the per-core statuses written into
error_code by enter_hypervisor / leave_hypervisor. -/
def barrier_code (l : List Int) : Int :=
  l.foldl (fun acc s => if s ≠ 0 then s else acc) 0

/-- Arguments and injected collaborator outcomes of jailhouse_enable.  The
header fields are those of the firmware blob; fwSize is hypervisor->size,
hvMemSize the reserved-region size, configSize the serialized config size. -/
structure EnableArgs where
  copyOk : Bool
  lockOk : Bool
  moduleGetOk : Bool
  name : List Char
  cellAllocOk : Bool
  firmwareErr : Int
  sigOk : Bool
  core_size : Nat
  percpu_size : Nat
  possible_cpus : Nat
  fwSize : Nat
  hvMemSize : Nat
  configSize : Nat
  mapOk : Bool
  configCopyOk : Bool
  coreStatuses : List Int

/-- Result of jailhouse_enable.  copyLen and fillLen record the byte counts
of the memcpy of the image and of the zero-fill memset when the code reaches
them (fillLen is the size_t value hv_mem->size - hypervisor->size). -/
structure EnableOut where
  ret : Int
  st : DriverState
  copyLen : Option Nat
  fillLen : Option Nat
deriving DecidableEq

/-- jailhouse_enable from driver.c. -/
def jailhouse_enable (st : DriverState) (a : EnableArgs) : EnableOut :=
  if !a.copyOk then ⟨-EFAULT, st, none, none⟩
  else if !a.lockOk then ⟨-EINTR, st, none, none⟩
  else if st.enabled || !a.moduleGetOk then ⟨-EBUSY, st, none, none⟩
  else if !a.cellAllocOk then ⟨-ENOMEM, st, none, none⟩
  else if a.firmwareErr ≠ 0 then ⟨a.firmwareErr, st, none, none⟩
  else if !a.sigOk then ⟨-EINVAL, st, none, none⟩
  else if a.hvMemSize ≤
      (PAGE_ALIGN a.core_size + a.possible_cpus * a.percpu_size
        + a.configSize) % U64 then
    ⟨-EINVAL, st, none, none⟩
  else if !a.mapOk then ⟨-EINVAL, st, none, none⟩
  else if !a.configCopyOk then
    ⟨-EFAULT, { st with mapped := false }, some a.fwSize, some (subU64 a.hvMemSize a.fwSize)⟩
  else if barrier_code a.coreStatuses ≠ 0 then
    ⟨barrier_code a.coreStatuses, { st with mapped := false },
     some a.fwSize, some (subU64 a.hvMemSize a.fwSize)⟩
  else
    ⟨0, { st with mapped := true,
                  enabled := true,
                  cells := st.cells ++ [⟨truncName a.name, 0, ∅, true⟩] },
     some a.fwSize, some (subU64 a.hvMemSize a.fwSize)⟩

/-- Arguments and injected collaborator outcomes of jailhouse_disable. -/
structure DisableArgs where
  lockOk : Bool
  coreStatuses : List Int
  upRes : Nat → Int

/-- Result of jailhouse_disable. -/
structure DisableOut where
  ret : Int
  st : DriverState
deriving DecidableEq

/-- jailhouse_disable from driver.c: on barrier success it unmaps the
region, brings every CPU in offlined_cpus back up (best effort, the mask
bit is cleared in all cases), deletes every cell, and clears enabled. -/
def jailhouse_disable (st : DriverState) (a : DisableArgs) : DisableOut :=
  if !a.lockOk then ⟨-EINTR, st⟩
  else if !st.enabled then ⟨-EINVAL, st⟩
  else if barrier_code a.coreStatuses ≠ 0 then ⟨barrier_code a.coreStatuses, st⟩
  else
    ⟨0, { st with mapped := false,
                  online := st.online ∪ st.offlined_cpus.filter (fun cpu => a.upRes cpu = 0),
                  offlined_cpus := ∅,
                  cells := [],
                  enabled := false }⟩

/-- Union of the ghost claimed CPU sets of the non-root registered cells. -/
def cellUnion (cs : List Cell) : Finset Nat :=
  cs.foldr (fun c acc => if c.isRoot then acc else c.claimed ∪ acc) ∅

/-- The CPU-conservation statement of the spec: the offlined-by-cell set
equals the union of the CPU sets owned by the registered non-root cells. -/
def C8Inv (st : DriverState) : Prop :=
  st.offlined_cpus = cellUnion st.cells

instance (st : DriverState) : Decidable (C8Inv st) := by
  unfold C8Inv; infer_instance

/-- Strengthened invariant used to prove CPU conservation: the conservation
equation itself, disjointness of the offlined mask from the online set,
uniqueness of registered names, and pairwise disjointness of the claimed
sets of distinct non-root cells. -/
def GoodInv (st : DriverState) : Prop :=
  st.offlined_cpus = cellUnion st.cells ∧
  st.offlined_cpus ∩ st.online = ∅ ∧
  (st.cells.map Cell.name).Nodup ∧
  ∀ c ∈ st.cells, ∀ d ∈ st.cells, c.isRoot = false → d.isRoot = false →
    c.name ≠ d.name → c.claimed ∩ d.claimed = ∅

instance (st : DriverState) : Decidable (GoodInv st) := by
  unfold GoodInv; infer_instance

/-- A top-level cell-lifecycle request: a CreateCell or DestroyCell call. -/
inductive DriverOp where
  | create (a : CreateArgs)
  | destroy (a : DestroyArgs)

/-- One step of a sequence of cell-lifecycle calls that all succeed, under
the side conditions of the amended CPU-conservation claim: a CreateCell must
claim only CPUs that are online at creation time, and a DestroyCell must
supply the creation-time configuration of a non-root cell (so its CPU list
denotes exactly the ghost claimed set of the destroyed cell).  Returns none
when the call fails or a side condition is violated. -/
def goodStep (st : DriverState) : DriverOp → Option DriverState
  | .create a =>
    if (jailhouse_cell_create st a).hvCalled = true ∧ 0 ≤ a.hvResult ∧
        ∀ cpu ∈ a.config.cpus, cpu ∈ st.online then
      some (jailhouse_cell_create st a).st
    else none
  | .destroy a =>
    match find_cell st.cells (truncName a.config.name) with
    | none => none
    | some c =>
      if (jailhouse_cell_destroy st a).hvCalled = true ∧ a.hvResult = 0 ∧
          a.config.cpus.toFinset = c.claimed ∧ c.isRoot = false then
        some (jailhouse_cell_destroy st a).st
      else none

/-- Run a sequence of cell-lifecycle calls through goodStep. -/
def runOps (st : DriverState) : List DriverOp → Option DriverState
  | [] => some st
  | op :: rest =>
    match goodStep st op with
    | none => none
    | some st2 => runOps st2 rest

/-- The implicit root cell as registered by a successful enable. -/
def rootCell : Cell := ⟨['r'], 0, ∅, true⟩

/-- A non-root cell that owns CPU 3. -/
def cellA : Cell := ⟨['a'], 1, {3}, false⟩

/-- Enabled state right after a successful enable on a four-CPU machine. -/
def s0 : DriverState := ⟨true, true, ∅, [rootCell], {0, 1, 2, 3}⟩

/-- Enabled state in which cellA has withdrawn CPU 3. -/
def s1 : DriverState := ⟨true, true, {3}, [rootCell, cellA], {0, 1, 2}⟩

/-- Disabled pristine state. -/
def sDis : DriverState := ⟨false, false, ∅, [], {0, 1}⟩

/-- CreateCell for a cell named b claiming CPUs 2 and 3 whose hypervisor
create call is rejected; all other collaborators succeed. -/
def c1args : CreateArgs :=
  ⟨true, true, true, true, ⟨['b'], [2, 3]⟩, [], [], true,
   fun _ => 0, fun _ => 0, -1, 0⟩

/-- CreateCell for a cell named b claiming CPUs 2 and 3 which the
hypervisor accepts with id 2. -/
def c2okArgs : CreateArgs :=
  ⟨true, true, true, true, ⟨['b'], [2, 3]⟩, [], [], true,
   fun _ => 0, fun _ => 0, 2, 0⟩

/-- CreateCell for a cell named b claiming CPUs 2 and 3 whose hypervisor
create call fails with -5. -/
def c2failArgs : CreateArgs :=
  ⟨true, true, true, true, ⟨['b'], [2, 3]⟩, [], [], true,
   fun _ => 0, fun _ => 0, -5, 0⟩

/-- CreateCell with zero preload images claiming only the offline CPU 5,
accepted by the hypervisor; junk is the indeterminate value of the
uninitialized local err. -/
def c4args : CreateArgs :=
  ⟨true, true, true, true, ⟨['b'], [5]⟩, [], [], true,
   fun _ => 0, fun _ => 0, 7, -99⟩

/-- Enable arguments whose header fields pass the size check while the
firmware blob itself is five times larger than the reserved region. -/
def e5badArgs : EnableArgs :=
  ⟨true, true, true, ['r'], true, 0, true, 0, 0, 4, 40960, 8192, 100,
   true, true, [0]⟩

/-- Enable arguments failing the reserved-region size check. -/
def e5smallArgs : EnableArgs :=
  ⟨true, true, true, ['r'], true, 0, true, 0, 0, 4, 40, 90, 100,
   true, true, [0]⟩

/-- Enable arguments with consistent sizes reaching the copy stage. -/
def e5okArgs : EnableArgs :=
  ⟨true, true, true, ['r'], true, 0, true, 4096, 0, 2, 4096, 8192, 10,
   true, true, [0]⟩

/-- Enable arguments whose header declares core_size 2^64 - 1: the wrapping
PAGE_ALIGN reduces it to 0, so the size check passes for an 8 KiB region
although the header demands far more memory than the region holds. -/
def e5wrapArgs : EnableArgs :=
  ⟨true, true, true, ['r'], true, 0, true, 18446744073709551615, 0, 4, 100,
   8192, 100, true, true, [0]⟩

/-- Enable arguments reaching the barrier, where one core reports 5. -/
def e3args : EnableArgs :=
  ⟨true, true, true, ['r'], true, 0, true, 4096, 0, 2, 4096, 8192, 10,
   true, true, [5]⟩

/-- Disable arguments where one core reports 7 from the leave hypercall. -/
def d3args : DisableArgs := ⟨true, [7], fun _ => 0⟩

/-- Arbitrary enable arguments used against an already-enabled state. -/
def e6args : EnableArgs :=
  ⟨true, true, true, ['s'], true, 0, true, 4096, 0, 2, 4096, 8192, 10,
   true, true, [0]⟩

/-- CreateCell whose configuration name collides with registered cellA. -/
def c7args : CreateArgs :=
  ⟨true, true, true, true, ⟨['a'], [2]⟩, [], [], true,
   fun _ => 0, fun _ => 0, 1, 0⟩

/-- CreateCell for a cell named c claiming the online CPU 2, accepted by
the hypervisor with id 1. -/
def c8args : CreateArgs :=
  ⟨true, true, true, true, ⟨['c'], [2]⟩, [], [], true,
   fun _ => 0, fun _ => 0, 1, 0⟩

/-- The state after running c8args from s0. -/
def c8end : DriverState :=
  ⟨true, true, {2}, [rootCell, ⟨['c'], 1, {2}, false⟩], {0, 1, 3}⟩

/-- CreateCell for a cell named c claiming only the offline CPU 5,
accepted by the hypervisor: the call succeeds but withdraws nothing. -/
def c8badArgs : CreateArgs :=
  ⟨true, true, true, true, ⟨['c'], [5]⟩, [], [], true,
   fun _ => 0, fun _ => 0, 1, 0⟩

/-- Disable arguments where every core succeeds. -/
def c8disArgs : DisableArgs := ⟨true, [0], fun _ => 0⟩

/-- DestroyCell for a name that was never created. -/
def d9aArgs : DestroyArgs := ⟨true, true, true, true, ⟨['z'], []⟩, 0, fun _ => 0⟩

/-- DestroyCell for cellA whose hypervisor destroy call fails with -5. -/
def d9bArgs : DestroyArgs := ⟨true, true, true, true, ⟨['a'], [3]⟩, -5, fun _ => 0⟩

/-- DestroyCell for cellA supplying its creation-time CPU set. -/
def d10args : DestroyArgs := ⟨true, true, true, true, ⟨['a'], [3]⟩, 0, fun _ => 0⟩

/-- Enabled state in which a cell named d was created claiming CPUs 2 and 3. -/
def s10 : DriverState :=
  ⟨true, true, {2, 3}, [rootCell, ⟨['d'], 2, {2, 3}, false⟩], {0, 1}⟩

/-- DestroyCell for the cell named d supplying only CPU 2, not its creation set. -/
def d10mismatchArgs : DestroyArgs :=
  ⟨true, true, true, true, ⟨['d'], [2]⟩, 0, fun _ => 0⟩

theorem barrier_fold_ne (l : List Int) : ∀ acc : Int,
    (acc ≠ 0 ∨ ∃ s ∈ l, s ≠ 0) →
    l.foldl (fun acc s => if s ≠ 0 then s else acc) acc ≠ 0 := by
  induction l with
  | nil =>
    intro acc h
    rcases h with h | ⟨s, hs, _⟩
    · simpa using h
    · cases hs
  | cons x xs ih =>
    intro acc h
    simp only [List.foldl_cons]
    by_cases hx : x ≠ 0
    · exact ih _ (Or.inl (by simp [hx]))
    · push_neg at hx
      rcases h with h | ⟨s, hs, hs0⟩
      · exact ih _ (Or.inl (by simp [hx, h]))
      · rcases List.mem_cons.mp hs with rfl | hmem
        · exact absurd hx hs0
        · exact ih _ (Or.inr ⟨s, hmem, hs0⟩)

theorem barrier_code_ne_zero {l : List Int} (h : ∃ s ∈ l, s ≠ 0) :
    barrier_code l ≠ 0 :=
  barrier_fold_ne l 0 (Or.inr h)

theorem find_cell_mem {cs : List Cell} {n : List Char} {c : Cell}
    (h : find_cell cs n = some c) : c ∈ cs ∧ c.name = n := by
  unfold find_cell at h
  refine ⟨List.mem_of_find?_eq_some h, ?_⟩
  simpa using List.find?_some h

theorem find_cell_none {cs : List Cell} {n : List Char}
    (h : find_cell cs n = none) : ∀ c ∈ cs, c.name ≠ n := by
  unfold find_cell at h
  intro c hc
  simpa using List.find?_eq_none.mp h c hc

theorem find_cell_isSome_of_mem {cs : List Cell} {n : List Char} {c : Cell}
    (hc : c ∈ cs) (hn : c.name = n) : (find_cell cs n).isSome = true := by
  unfold find_cell
  cases hfind : cs.find? (fun c => c.name == n) with
  | some _ => rfl
  | none => exact absurd hn (by simpa using List.find?_eq_none.mp hfind c hc)

theorem delete_cell_sublist (cs : List Cell) (n : List Char) :
    List.Sublist (delete_cell cs n) cs := by
  induction cs with
  | nil => simp [delete_cell]
  | cons c rest ih =>
    unfold delete_cell
    by_cases h : (c.name == n) = true
    · rw [if_pos h]
      exact (List.Sublist.refl rest).cons c
    · rw [if_neg h]
      exact ih.cons₂ c

theorem delete_cell_name_ne {cs : List Cell} {n : List Char} {c : Cell}
    (hnd : (cs.map Cell.name).Nodup) (h : find_cell cs n = some c) :
    ∀ d ∈ delete_cell cs n, d.name ≠ n := by
  induction cs with
  | nil => cases h
  | cons hd rest ih =>
    unfold find_cell at h
    rw [List.find?_cons] at h
    by_cases hb : (hd.name == n) = true
    · rw [hb] at h
      have hc : c = hd := by cases h; rfl
      have hname : hd.name = n := by simpa using hb
      have hnotin : hd.name ∉ rest.map Cell.name := by
        simpa using (List.nodup_cons.mp hnd).1
      intro d hdmem
      unfold delete_cell at hdmem
      rw [if_pos hb] at hdmem
      intro hdn
      exact hnotin (by
        rw [hname, ← hdn]
        exact List.mem_map_of_mem Cell.name hdmem)
    · rw [Bool.not_eq_true] at hb
      rw [hb] at h
      intro d hdmem
      unfold delete_cell at hdmem
      rw [if_neg (by simp [hb])] at hdmem
      rcases List.mem_cons.mp hdmem with rfl | hmem
      · simpa using hb
      · exact ih (List.nodup_cons.mp hnd).2 h d hmem

theorem cellUnion_cons (c : Cell) (cs : List Cell) :
    cellUnion (c :: cs) =
      if c.isRoot then cellUnion cs else c.claimed ∪ cellUnion cs := rfl

theorem mem_cellUnion {cs : List Cell} {x : Nat} :
    x ∈ cellUnion cs ↔ ∃ c ∈ cs, c.isRoot = false ∧ x ∈ c.claimed := by
  induction cs with
  | nil => simp [cellUnion]
  | cons d rest ih =>
    rw [cellUnion_cons]
    cases hd : d.isRoot <;>
      simp [hd, ih, List.mem_cons, or_and_right, exists_or]

theorem cellUnion_append_single (cs : List Cell) (c : Cell)
    (h : c.isRoot = false) :
    cellUnion (cs ++ [c]) = cellUnion cs ∪ c.claimed := by
  ext x
  simp [mem_cellUnion, Finset.mem_union, List.mem_append, List.mem_singleton]
  constructor
  · rintro ⟨e, he | he, her, hex⟩
    · exact Or.inl ⟨e, he, her, hex⟩
    · exact Or.inr (he ▸ hex)
  · rintro (⟨e, he, her, hex⟩ | hx)
    · exact ⟨e, Or.inl he, her, hex⟩
    · exact ⟨c, Or.inr rfl, h, hx⟩

theorem claimed_subset_cellUnion {cs : List Cell} {c : Cell}
    (hc : c ∈ cs) (hr : c.isRoot = false) : c.claimed ⊆ cellUnion cs := by
  intro x hx
  exact mem_cellUnion.mpr ⟨c, hc, hr, hx⟩

theorem withdraw_loop_frame (d : Nat → Int) :
    ∀ (l : List Nat) (st : DriverState) (err : Int) (ds : List Nat),
      (withdraw_loop d l st err ds).st.cells = st.cells ∧
      (withdraw_loop d l st err ds).st.enabled = st.enabled ∧
      (withdraw_loop d l st err ds).st.mapped = st.mapped := by
  intro l
  induction l with
  | nil => intro st err ds; exact ⟨rfl, rfl, rfl⟩
  | cons cpu rest ih =>
    intro st err ds
    unfold withdraw_loop
    by_cases h1 : cpu ∈ st.online
    · rw [if_pos h1]
      by_cases h2 : d cpu ≠ 0
      · rw [if_pos h2]
        exact ⟨rfl, rfl, rfl⟩
      · rw [if_neg h2]
        exact ih _ _ _
    · rw [if_neg h1]
      exact ih _ _ _

theorem withdraw_loop_shape (d : Nat → Int) :
    ∀ (l : List Nat) (st : DriverState) (err : Int) (ds : List Nat),
      ∃ W : Finset Nat, W ⊆ l.toFinset ∧ W ⊆ st.online ∧
        (withdraw_loop d l st err ds).st.offlined_cpus = st.offlined_cpus ∪ W ∧
        (withdraw_loop d l st err ds).st.online = st.online \ W := by
  intro l
  induction l with
  | nil =>
    intro st err ds
    exact ⟨∅, by simp, by simp, by simp [withdraw_loop], by simp [withdraw_loop]⟩
  | cons cpu rest ih =>
    intro st err ds
    unfold withdraw_loop
    by_cases h1 : cpu ∈ st.online
    · rw [if_pos h1]
      by_cases h2 : d cpu ≠ 0
      · rw [if_pos h2]
        exact ⟨∅, by simp, by simp, by simp, by simp⟩
      · rw [if_neg h2]
        obtain ⟨W, hW1, hW2, hW3, hW4⟩ :=
          ih { st with online := st.online.erase cpu,
                       offlined_cpus := insert cpu st.offlined_cpus }
             (d cpu) (ds ++ [cpu])
        refine ⟨insert cpu W, ?_, ?_, ?_, ?_⟩
        · rw [List.toFinset_cons]
          exact Finset.insert_subset_insert cpu hW1
        · intro x hx
          rcases Finset.mem_insert.mp hx with rfl | hx
          · exact h1
          · exact Finset.mem_of_mem_erase (hW2 hx)
        · rw [hW3]
          ext x
          by_cases hxc : x = cpu
          · subst hxc; simp
          · simp [hxc]
        · rw [hW4]
          ext x
          by_cases hxc : x = cpu
          · subst hxc; simp
          · simp [hxc]
    · rw [if_neg h1]
      obtain ⟨W, hW1, hW2, hW3, hW4⟩ := ih st err ds
      refine ⟨W, ?_, hW2, hW3, hW4⟩
      rw [List.toFinset_cons]
      exact hW1.trans (Finset.subset_insert cpu _)

theorem withdraw_loop_fail_err (d : Nat → Int) :
    ∀ (l : List Nat) (st : DriverState) (err : Int) (ds : List Nat),
      (withdraw_loop d l st err ds).failed = true →
      (withdraw_loop d l st err ds).err ≠ 0 := by
  intro l
  induction l with
  | nil => intro st err ds h; cases h
  | cons cpu rest ih =>
    intro st err ds h
    unfold withdraw_loop at h ⊢
    by_cases h1 : cpu ∈ st.online
    · rw [if_pos h1] at h ⊢
      by_cases h2 : d cpu ≠ 0
      · rw [if_pos h2] at h ⊢
        exact h2
      · rw [if_neg h2] at h ⊢
        exact ih _ _ _ h
    · rw [if_neg h1] at h ⊢
      exact ih _ _ _ h

theorem withdraw_loop_nofail (d : Nat → Int) :
    ∀ (l : List Nat) (st : DriverState) (err : Int) (ds : List Nat),
      (withdraw_loop d l st err ds).failed = false →
      (withdraw_loop d l st err ds).st.offlined_cpus
          = st.offlined_cpus ∪ (l.toFinset ∩ st.online) ∧
      (withdraw_loop d l st err ds).st.online = st.online \ l.toFinset := by
  intro l
  induction l with
  | nil => intro st err ds _; constructor <;> simp [withdraw_loop]
  | cons cpu rest ih =>
    intro st err ds h
    unfold withdraw_loop at h ⊢
    by_cases h1 : cpu ∈ st.online
    · rw [if_pos h1] at h ⊢
      by_cases h2 : d cpu ≠ 0
      · rw [if_pos h2] at h
        cases h
      · rw [if_neg h2] at h ⊢
        obtain ⟨ih1, ih2⟩ :=
          ih { st with online := st.online.erase cpu,
                       offlined_cpus := insert cpu st.offlined_cpus }
             (d cpu) (ds ++ [cpu]) h
        constructor
        · rw [ih1]
          ext x
          by_cases hxc : x = cpu
          · subst hxc; simp [h1]
          · simp [hxc]
        · rw [ih2]
          ext x
          by_cases hxc : x = cpu
          · subst hxc; simp
          · simp [hxc]
    · rw [if_neg h1] at h ⊢
      obtain ⟨ih1, ih2⟩ := ih st err ds h
      constructor
      · rw [ih1]
        ext x
        by_cases hxc : x = cpu
        · subst hxc; simp [h1]
        · simp [hxc]
      · rw [ih2]
        ext x
        by_cases hxc : x = cpu
        · subst hxc; simp [h1]
        · simp [hxc]

theorem withdraw_loop_ok_not_failed (d : Nat → Int) :
    ∀ (l : List Nat) (st : DriverState) (err : Int) (ds : List Nat),
      (∀ cpu ∈ l, d cpu = 0) →
      (withdraw_loop d l st err ds).failed = false := by
  intro l
  induction l with
  | nil => intro st err ds _; rfl
  | cons cpu rest ih =>
    intro st err ds h
    unfold withdraw_loop
    by_cases h1 : cpu ∈ st.online
    · rw [if_pos h1]
      have h2 : ¬(d cpu ≠ 0) := by simp [h cpu (List.mem_cons_self cpu rest)]
      rw [if_neg h2]
      exact ih _ _ _ (fun c hc => h c (List.mem_cons_of_mem cpu hc))
    · rw [if_neg h1]
      exact ih _ _ _ (fun c hc => h c (List.mem_cons_of_mem cpu hc))

theorem rollback_cpus_frame (u : Nat → Int) :
    ∀ (l : List Nat) (st : DriverState),
      (rollback_cpus u l st).cells = st.cells ∧
      (rollback_cpus u l st).enabled = st.enabled ∧
      (rollback_cpus u l st).mapped = st.mapped := by
  intro l
  induction l with
  | nil => intro st; exact ⟨rfl, rfl, rfl⟩
  | cons cpu rest ih =>
    intro st
    unfold rollback_cpus
    by_cases h1 : cpu ∈ st.online
    · rw [if_pos h1]
      exact ih _
    · rw [if_neg h1]
      by_cases h2 : u cpu = 0
      · rw [if_pos h2]
        exact ih _
      · rw [if_neg h2]
        exact ih _

theorem rollback_cpus_ok (u : Nat → Int) :
    ∀ (l : List Nat) (st : DriverState),
      (∀ cpu ∈ l, u cpu = 0) →
      (rollback_cpus u l st).online = st.online ∪ l.toFinset ∧
      (rollback_cpus u l st).offlined_cpus
          = st.offlined_cpus \ (l.toFinset \ st.online) := by
  intro l
  induction l with
  | nil => intro st _; constructor <;> simp [rollback_cpus]
  | cons cpu rest ih =>
    intro st h
    unfold rollback_cpus
    by_cases h1 : cpu ∈ st.online
    · rw [if_pos h1]
      obtain ⟨ih1, ih2⟩ := ih st (fun c hc => h c (List.mem_cons_of_mem cpu hc))
      constructor
      · rw [ih1]
        ext x
        by_cases hxc : x = cpu
        · subst hxc; simp [h1]
        · simp [hxc]
      · rw [ih2]
        ext x
        by_cases hxc : x = cpu
        · subst hxc; simp [h1]
        · simp [hxc]
    · rw [if_neg h1]
      rw [if_pos (h cpu (List.mem_cons_self cpu rest))]
      obtain ⟨ih1, ih2⟩ :=
        ih { st with online := insert cpu st.online,
                     offlined_cpus := st.offlined_cpus.erase cpu }
           (fun c hc => h c (List.mem_cons_of_mem cpu hc))
      constructor
      · rw [ih1]
        ext x
        by_cases hxc : x = cpu
        · subst hxc; simp
        · simp [hxc]
      · rw [ih2]
        ext x
        by_cases hxc : x = cpu
        · subst hxc; simp [h1]
        · simp [hxc]

theorem destroy_cpu_loop_frame (u : Nat → Int) :
    ∀ (l : List Nat) (st : DriverState),
      (destroy_cpu_loop u l st).cells = st.cells ∧
      (destroy_cpu_loop u l st).enabled = st.enabled ∧
      (destroy_cpu_loop u l st).mapped = st.mapped := by
  intro l
  induction l with
  | nil => intro st; exact ⟨rfl, rfl, rfl⟩
  | cons cpu rest ih =>
    intro st
    unfold destroy_cpu_loop
    by_cases h1 : cpu ∈ st.offlined_cpus
    · rw [if_pos h1]
      by_cases h2 : u cpu = 0
      · rw [if_pos h2]
        exact ih _
      · rw [if_neg h2]
        exact ih _
    · rw [if_neg h1]
      exact ih _

theorem destroy_cpu_loop_offlined (u : Nat → Int) :
    ∀ (l : List Nat) (st : DriverState),
      (destroy_cpu_loop u l st).offlined_cpus
          = st.offlined_cpus \ l.toFinset := by
  intro l
  induction l with
  | nil => intro st; simp [destroy_cpu_loop]
  | cons cpu rest ih =>
    intro st
    unfold destroy_cpu_loop
    by_cases h1 : cpu ∈ st.offlined_cpus
    · rw [if_pos h1]
      by_cases h2 : u cpu = 0
      · rw [if_pos h2, ih]
        ext x
        by_cases hxc : x = cpu
        · subst hxc; simp
        · simp [hxc]
      · rw [if_neg h2, ih]
        ext x
        by_cases hxc : x = cpu
        · subst hxc; simp
        · simp [hxc]
    · rw [if_neg h1, ih]
      ext x
      by_cases hxc : x = cpu
      · subst hxc; simp [h1]
      · simp [hxc]

theorem destroy_cpu_loop_online_ok (u : Nat → Int) :
    ∀ (l : List Nat) (st : DriverState),
      (∀ cpu ∈ l, u cpu = 0) →
      (destroy_cpu_loop u l st).online
          = st.online ∪ (l.toFinset ∩ st.offlined_cpus) := by
  intro l
  induction l with
  | nil => intro st _; simp [destroy_cpu_loop]
  | cons cpu rest ih =>
    intro st h
    unfold destroy_cpu_loop
    by_cases h1 : cpu ∈ st.offlined_cpus
    · rw [if_pos h1]
      rw [if_pos (h cpu (List.mem_cons_self cpu rest))]
      rw [ih _ (fun c hc => h c (List.mem_cons_of_mem cpu hc))]
      ext x
      by_cases hxc : x = cpu
      · subst hxc; simp [h1]
      · simp [hxc]
    · rw [if_neg h1]
      rw [ih _ (fun c hc => h c (List.mem_cons_of_mem cpu hc))]
      ext x
      by_cases hxc : x = cpu
      · subst hxc; simp [h1]
      · simp [hxc]

theorem destroy_cpu_loop_online_sub (u : Nat → Int) :
    ∀ (l : List Nat) (st : DriverState),
      (destroy_cpu_loop u l st).online ⊆ st.online ∪ l.toFinset := by
  intro l
  induction l with
  | nil => intro st; simp [destroy_cpu_loop]
  | cons cpu rest ih =>
    intro st
    unfold destroy_cpu_loop
    by_cases h1 : cpu ∈ st.offlined_cpus
    · rw [if_pos h1]
      by_cases h2 : u cpu = 0
      · rw [if_pos h2]
        intro x hx
        have := ih _ hx
        rw [Finset.mem_union] at this ⊢
        rcases this with hx2 | hx2
        · rcases Finset.mem_insert.mp hx2 with rfl | hx3
          · exact Or.inr (by simp)
          · exact Or.inl hx3
        · exact Or.inr (by rw [List.toFinset_cons]; exact Finset.mem_insert_of_mem hx2)
      · rw [if_neg h2]
        intro x hx
        have := ih _ hx
        rw [Finset.mem_union] at this ⊢
        rcases this with hx2 | hx2
        · exact Or.inl hx2
        · exact Or.inr (by simp; exact Or.inr (List.mem_toFinset.mp hx2))
    · rw [if_neg h1]
      intro x hx
      have := ih _ hx
      rw [Finset.mem_union] at this ⊢
      rcases this with hx2 | hx2
      · exact Or.inl hx2
      · exact Or.inr (by simp; exact Or.inr (List.mem_toFinset.mp hx2))

theorem create_fail_eq_1 (st : DriverState) (a : CreateArgs)
    (hp : a.paramsCopyOk = true) (hk : a.kmallocOk = true)
    (hc : a.configCopyOk = true) (hl : a.lockOk = true)
    (he : st.enabled = true)
    (hf : find_cell st.cells (truncName a.config.name) = none)
    (hi : (processImages a.regions a.images a.junk).2 = false)
    (ha : a.cellAllocOk = true)
    (hw : (withdraw_loop a.downRes a.config.cpus st
        (processImages a.regions a.images a.junk).1 []).failed = true) :
    jailhouse_cell_create st a =
      ⟨(withdraw_loop a.downRes a.config.cpus st
          (processImages a.regions a.images a.junk).1 []).err,
       rollback_cpus a.upRes a.config.cpus
         (withdraw_loop a.downRes a.config.cpus st
           (processImages a.regions a.images a.junk).1 []).st,
       false,
       (withdraw_loop a.downRes a.config.cpus st
         (processImages a.regions a.images a.junk).1 []).downs⟩ := by
  unfold jailhouse_cell_create
  rw [hp, hk, hc, hl, he, hf, hi, ha, hw]
  simp

theorem create_fail_eq_2 (st : DriverState) (a : CreateArgs)
    (hp : a.paramsCopyOk = true) (hk : a.kmallocOk = true)
    (hc : a.configCopyOk = true) (hl : a.lockOk = true)
    (he : st.enabled = true)
    (hf : find_cell st.cells (truncName a.config.name) = none)
    (hi : (processImages a.regions a.images a.junk).2 = false)
    (ha : a.cellAllocOk = true)
    (hw : (withdraw_loop a.downRes a.config.cpus st
        (processImages a.regions a.images a.junk).1 []).failed = false)
    (hv : a.hvResult < 0) :
    jailhouse_cell_create st a =
      ⟨a.hvResult,
       rollback_cpus a.upRes a.config.cpus
         (withdraw_loop a.downRes a.config.cpus st
           (processImages a.regions a.images a.junk).1 []).st,
       true,
       (withdraw_loop a.downRes a.config.cpus st
         (processImages a.regions a.images a.junk).1 []).downs⟩ := by
  unfold jailhouse_cell_create
  rw [hp, hk, hc, hl, he, hf, hi, ha, hw]
  simp [hv]

theorem create_success_eq (st : DriverState) (a : CreateArgs)
    (hp : a.paramsCopyOk = true) (hk : a.kmallocOk = true)
    (hc : a.configCopyOk = true) (hl : a.lockOk = true)
    (he : st.enabled = true)
    (hf : find_cell st.cells (truncName a.config.name) = none)
    (hi : (processImages a.regions a.images a.junk).2 = false)
    (ha : a.cellAllocOk = true)
    (hw : (withdraw_loop a.downRes a.config.cpus st
        (processImages a.regions a.images a.junk).1 []).failed = false)
    (hv : 0 ≤ a.hvResult) :
    jailhouse_cell_create st a =
      ⟨(withdraw_loop a.downRes a.config.cpus st
          (processImages a.regions a.images a.junk).1 []).err,
       { (withdraw_loop a.downRes a.config.cpus st
            (processImages a.regions a.images a.junk).1 []).st with
         cells := (withdraw_loop a.downRes a.config.cpus st
            (processImages a.regions a.images a.junk).1 []).st.cells ++
           [⟨truncName a.config.name, a.hvResult, a.config.cpus.toFinset, false⟩] },
       true,
       (withdraw_loop a.downRes a.config.cpus st
         (processImages a.regions a.images a.junk).1 []).downs⟩ := by
  unfold jailhouse_cell_create
  rw [hp, hk, hc, hl, he, hf, hi, ha, hw]
  simp [not_lt.mpr hv]

theorem create_hvCalled_guards (st : DriverState) (a : CreateArgs)
    (h : (jailhouse_cell_create st a).hvCalled = true) :
    a.paramsCopyOk = true ∧ a.kmallocOk = true ∧ a.configCopyOk = true ∧
    a.lockOk = true ∧ st.enabled = true ∧
    find_cell st.cells (truncName a.config.name) = none ∧
    (processImages a.regions a.images a.junk).2 = false ∧
    a.cellAllocOk = true ∧
    (withdraw_loop a.downRes a.config.cpus st
        (processImages a.regions a.images a.junk).1 []).failed = false := by
  unfold jailhouse_cell_create at h
  by_cases hp : a.paramsCopyOk = true
  case neg => rw [Bool.not_eq_true] at hp; rw [hp] at h; simp at h
  rw [hp] at h
  by_cases hk : a.kmallocOk = true
  case neg => rw [Bool.not_eq_true] at hk; rw [hk] at h; simp at h
  rw [hk] at h
  by_cases hc : a.configCopyOk = true
  case neg => rw [Bool.not_eq_true] at hc; rw [hc] at h; simp at h
  rw [hc] at h
  by_cases hl : a.lockOk = true
  case neg => rw [Bool.not_eq_true] at hl; rw [hl] at h; simp at h
  rw [hl] at h
  by_cases he : st.enabled = true
  case neg => rw [Bool.not_eq_true] at he; rw [he] at h; simp at h
  rw [he] at h
  cases hf : find_cell st.cells (truncName a.config.name) with
  | some c => rw [hf] at h; simp at h
  | none =>
  rw [hf] at h
  cases hi : (processImages a.regions a.images a.junk).2 with
  | true => rw [hi] at h; simp at h
  | false =>
  rw [hi] at h
  by_cases ha : a.cellAllocOk = true
  case neg => rw [Bool.not_eq_true] at ha; rw [ha] at h; simp at h
  rw [ha] at h
  cases hw : (withdraw_loop a.downRes a.config.cpus st
      (processImages a.regions a.images a.junk).1 []).failed with
  | true => rw [hw] at h; simp at h
  | false =>
  exact ⟨hp, hk, hc, hl, he, rfl, rfl, ha, rfl⟩

theorem destroy_hvCalled_guards (st : DriverState) (a : DestroyArgs)
    (h : (jailhouse_cell_destroy st a).hvCalled = true) :
    a.paramsCopyOk = true ∧ a.kmallocOk = true ∧ a.configCopyOk = true ∧
    a.lockOk = true ∧ st.enabled = true := by
  unfold jailhouse_cell_destroy at h
  by_cases hp : a.paramsCopyOk = true
  case neg => rw [Bool.not_eq_true] at hp; rw [hp] at h; simp at h
  by_cases hk : a.kmallocOk = true
  case neg => rw [Bool.not_eq_true] at hk; rw [hp, hk] at h; simp at h
  by_cases hc : a.configCopyOk = true
  case neg => rw [Bool.not_eq_true] at hc; rw [hp, hk, hc] at h; simp at h
  by_cases hl : a.lockOk = true
  case neg => rw [Bool.not_eq_true] at hl; rw [hp, hk, hc, hl] at h; simp at h
  by_cases he : st.enabled = true
  case neg => rw [Bool.not_eq_true] at he; rw [hp, hk, hc, hl, he] at h; simp at h
  exact ⟨hp, hk, hc, hl, he⟩

theorem destroy_notfound_eq (st : DriverState) (a : DestroyArgs)
    (hp : a.paramsCopyOk = true) (hk : a.kmallocOk = true)
    (hc : a.configCopyOk = true) (hl : a.lockOk = true)
    (he : st.enabled = true)
    (hfind : find_cell st.cells (truncName a.config.name) = none) :
    jailhouse_cell_destroy st a = ⟨-ENOENT, st, false⟩ := by
  unfold jailhouse_cell_destroy
  rw [hp, hk, hc, hl, he, hfind]
  simp

theorem destroy_hvfail_eq (st : DriverState) (a : DestroyArgs) (c : Cell)
    (hp : a.paramsCopyOk = true) (hk : a.kmallocOk = true)
    (hc : a.configCopyOk = true) (hl : a.lockOk = true)
    (he : st.enabled = true)
    (hfind : find_cell st.cells (truncName a.config.name) = some c)
    (hv : a.hvResult ≠ 0) :
    jailhouse_cell_destroy st a = ⟨a.hvResult, st, true⟩ := by
  unfold jailhouse_cell_destroy
  rw [hp, hk, hc, hl, he, hfind]
  simp [hv]

theorem destroy_success_eq (st : DriverState) (a : DestroyArgs) (c : Cell)
    (hp : a.paramsCopyOk = true) (hk : a.kmallocOk = true)
    (hc : a.configCopyOk = true) (hl : a.lockOk = true)
    (he : st.enabled = true)
    (hfind : find_cell st.cells (truncName a.config.name) = some c)
    (hv : a.hvResult = 0) :
    jailhouse_cell_destroy st a =
      ⟨0, destroy_cpu_loop a.upRes a.config.cpus
            { st with cells := delete_cell st.cells (truncName a.config.name) },
       true⟩ := by
  unfold jailhouse_cell_destroy
  rw [hp, hk, hc, hl, he, hfind, hv]
  simp

theorem rollback_withdraw_net (d u : Nat → Int) (l : List Nat)
    (st : DriverState) (e : Int) (ds : List Nat)
    (hup : ∀ cpu ∈ l, u cpu = 0)
    (hdisj : st.offlined_cpus ∩ st.online = ∅) :
    (rollback_cpus u l (withdraw_loop d l st e ds).st).offlined_cpus
        = st.offlined_cpus \ l.toFinset ∧
    (rollback_cpus u l (withdraw_loop d l st e ds).st).online
        = st.online ∪ l.toFinset ∧
    (rollback_cpus u l (withdraw_loop d l st e ds).st).cells = st.cells ∧
    (rollback_cpus u l (withdraw_loop d l st e ds).st).enabled = st.enabled ∧
    (rollback_cpus u l (withdraw_loop d l st e ds).st).mapped = st.mapped := by
  obtain ⟨W, hW1, hW2, hW3, hW4⟩ := withdraw_loop_shape d l st e ds
  obtain ⟨hr1, hr2⟩ := rollback_cpus_ok u l (withdraw_loop d l st e ds).st hup
  obtain ⟨hf1, hf2, hf3⟩ := withdraw_loop_frame d l st e ds
  obtain ⟨hg1, hg2, hg3⟩ := rollback_cpus_frame u l (withdraw_loop d l st e ds).st
  have hdisj2 : ∀ x ∈ st.offlined_cpus, x ∉ st.online := by
    intro x hx hx2
    have hmem : x ∈ st.offlined_cpus ∩ st.online := Finset.mem_inter.mpr ⟨hx, hx2⟩
    rw [hdisj] at hmem
    exact absurd hmem (Finset.not_mem_empty x)
  refine ⟨?_, ?_, by rw [hg1, hf1], by rw [hg2, hf2], by rw [hg3, hf3]⟩
  · rw [hr2, hW3, hW4]
    ext x
    have hx1 : x ∈ W → x ∈ l.toFinset := fun hw => hW1 hw
    have hx2 : x ∈ W → x ∈ st.online := fun hw => hW2 hw
    have hx3 : x ∈ st.offlined_cpus → x ∉ st.online := hdisj2 x
    simp only [Finset.mem_sdiff, Finset.mem_union]
    tauto
  · rw [hr1, hW4]
    ext x
    have hx1 : x ∈ W → x ∈ l.toFinset := fun hw => hW1 hw
    simp only [Finset.mem_union, Finset.mem_sdiff]
    tauto

theorem create_fail_rollback (st : DriverState) (a : CreateArgs)
    (hp : a.paramsCopyOk = true) (hk : a.kmallocOk = true)
    (hc : a.configCopyOk = true) (hl : a.lockOk = true)
    (he : st.enabled = true)
    (hf : find_cell st.cells (truncName a.config.name) = none)
    (hi : (processImages a.regions a.images a.junk).2 = false)
    (ha : a.cellAllocOk = true)
    (hfail : (withdraw_loop a.downRes a.config.cpus st
        (processImages a.regions a.images a.junk).1 []).failed = true ∨
      a.hvResult < 0)
    (hup : ∀ cpu ∈ a.config.cpus, a.upRes cpu = 0)
    (hdisj : st.offlined_cpus ∩ st.online = ∅) :
    (jailhouse_cell_create st a).ret ≠ 0 ∧
    (jailhouse_cell_create st a).st.offlined_cpus
        = st.offlined_cpus \ a.config.cpus.toFinset ∧
    (jailhouse_cell_create st a).st.online
        = st.online ∪ a.config.cpus.toFinset ∧
    (jailhouse_cell_create st a).st.cells = st.cells ∧
    (jailhouse_cell_create st a).st.enabled = st.enabled ∧
    (jailhouse_cell_create st a).st.mapped = st.mapped := by
  obtain ⟨hn1, hn2, hn3, hn4, hn5⟩ :=
    rollback_withdraw_net a.downRes a.upRes a.config.cpus st
      (processImages a.regions a.images a.junk).1 [] hup hdisj
  cases hw : (withdraw_loop a.downRes a.config.cpus st
      (processImages a.regions a.images a.junk).1 []).failed with
  | true =>
    rw [create_fail_eq_1 st a hp hk hc hl he hf hi ha hw]
    exact ⟨withdraw_loop_fail_err a.downRes a.config.cpus st
        (processImages a.regions a.images a.junk).1 [] hw,
      hn1, hn2, hn3, hn4, hn5⟩
  | false =>
    have hv : a.hvResult < 0 := by
      rcases hfail with hx | hx
      · rw [hw] at hx; cases hx
      · exact hx
    rw [create_fail_eq_2 st a hp hk hc hl he hf hi ha hw hv]
    exact ⟨ne_of_lt hv, hn1, hn2, hn3, hn4, hn5⟩

theorem disj_of_subsets {A B s t : Finset Nat} (hA : A ⊆ s) (hB : B ⊆ t)
    (hst : s ∩ t = ∅) : A ∩ B = ∅ := by
  ext x
  simp only [Finset.mem_inter, Finset.not_mem_empty, iff_false, not_and]
  intro hxA hxB
  have hmem : x ∈ s ∩ t := Finset.mem_inter.mpr ⟨hA hxA, hB hxB⟩
  rw [hst] at hmem
  exact absurd hmem (Finset.not_mem_empty x)

theorem inter_cellUnion_empty {cs : List Cell} {s : Finset Nat}
    (h : ∀ d ∈ cs, d.isRoot = false → s ∩ d.claimed = ∅) :
    s ∩ cellUnion cs = ∅ := by
  ext x
  simp only [Finset.mem_inter, Finset.not_mem_empty, iff_false, not_and]
  intro hxs hxu
  obtain ⟨c, hc, hcr, hcx⟩ := mem_cellUnion.mp hxu
  have hmem : x ∈ s ∩ c.claimed := Finset.mem_inter.mpr ⟨hxs, hcx⟩
  rw [h c hc hcr] at hmem
  exact absurd hmem (Finset.not_mem_empty x)

theorem find_delete_union {cs : List Cell} {n : List Char} {c : Cell}
    (hfind : find_cell cs n = some c) (hr : c.isRoot = false) :
    cellUnion cs = c.claimed ∪ cellUnion (delete_cell cs n) := by
  induction cs with
  | nil => cases hfind
  | cons hd rest ih =>
    by_cases hb : (hd.name == n) = true
    · have hfind2 : find_cell (hd :: rest) n = some hd := by
        unfold find_cell
        exact List.find?_cons_of_pos _ hb
      rw [hfind2] at hfind
      injection hfind with hfind
      subst hfind
      unfold delete_cell
      rw [if_pos hb, cellUnion_cons]
      simp [hr]
    · have hstep : find_cell (hd :: rest) n = find_cell rest n := by
        unfold find_cell
        exact List.find?_cons_of_neg _ (by simp [hb])
      rw [hstep] at hfind
      have hcmem := find_cell_mem hfind
      unfold delete_cell
      rw [if_neg hb]
      ext x
      simp only [mem_cellUnion, Finset.mem_union, List.mem_cons]
      constructor
      · rintro ⟨e, he | he, her, hex⟩
        · exact Or.inr ⟨e, Or.inl he, her, hex⟩
        · have hxr : x ∈ cellUnion rest := mem_cellUnion.mpr ⟨e, he, her, hex⟩
          rw [ih hfind] at hxr
          rcases Finset.mem_union.mp hxr with hx | hx
          · exact Or.inl hx
          · obtain ⟨f, hf2, hfr, hfx⟩ := mem_cellUnion.mp hx
            exact Or.inr ⟨f, Or.inr hf2, hfr, hfx⟩
      · rintro (hx | ⟨e, he | he, her, hex⟩)
        · exact ⟨c, Or.inr hcmem.1, hr, hx⟩
        · exact ⟨e, Or.inl he, her, hex⟩
        · exact ⟨e, Or.inr ((delete_cell_sublist rest n).subset he), her, hex⟩

theorem goodStep_create_eq (st : DriverState) (a : CreateArgs) :
    goodStep st (DriverOp.create a) =
      if (jailhouse_cell_create st a).hvCalled = true ∧ 0 ≤ a.hvResult ∧
          ∀ cpu ∈ a.config.cpus, cpu ∈ st.online then
        some (jailhouse_cell_create st a).st
      else none := rfl

theorem goodStep_destroy_eq (st : DriverState) (a : DestroyArgs) :
    goodStep st (DriverOp.destroy a) =
      match find_cell st.cells (truncName a.config.name) with
      | none => none
      | some c =>
        if (jailhouse_cell_destroy st a).hvCalled = true ∧ a.hvResult = 0 ∧
            a.config.cpus.toFinset = c.claimed ∧ c.isRoot = false then
          some (jailhouse_cell_destroy st a).st
        else none := rfl

theorem goodStep_create_inv (st st2 : DriverState) (a : CreateArgs)
    (hInv : GoodInv st)
    (h : goodStep st (DriverOp.create a) = some st2) : GoodInv st2 := by
  rw [goodStep_create_eq] at h
  by_cases hcond : (jailhouse_cell_create st a).hvCalled = true ∧ 0 ≤ a.hvResult ∧
      ∀ cpu ∈ a.config.cpus, cpu ∈ st.online
  case neg => rw [if_neg hcond] at h; cases h
  rw [if_pos hcond] at h
  injection h with h
  subst h
  obtain ⟨hhv, hv0, honline⟩ := hcond
  obtain ⟨hp, hk, hc, hl, he, hf, hi, ha, hw⟩ := create_hvCalled_guards st a hhv
  obtain ⟨hInv1, hInv2, hInv3, hInv4⟩ := hInv
  rw [create_success_eq st a hp hk hc hl he hf hi ha hw hv0]
  obtain ⟨hw1, hw2⟩ := withdraw_loop_nofail a.downRes a.config.cpus st
    (processImages a.regions a.images a.junk).1 [] hw
  obtain ⟨hfc, hfe, hfm⟩ := withdraw_loop_frame a.downRes a.config.cpus st
    (processImages a.regions a.images a.junk).1 []
  have hsub : a.config.cpus.toFinset ⊆ st.online := by
    intro x hx
    exact honline x (List.mem_toFinset.mp hx)
  have hinter : a.config.cpus.toFinset ∩ st.online = a.config.cpus.toFinset :=
    Finset.inter_eq_left.mpr hsub
  have hnames := find_cell_none hf
  unfold GoodInv
  dsimp only
  rw [hw1, hw2, hfc, hinter]
  refine ⟨?_, ?_, ?_, ?_⟩
  · rw [cellUnion_append_single _ _ rfl, ← hInv1]
  · rw [Finset.eq_empty_iff_forall_not_mem]
    intro x hx
    rw [Finset.mem_inter, Finset.mem_union, Finset.mem_sdiff] at hx
    rcases hx with ⟨hx1 | hx1, hx2, hx3⟩
    · have hmem : x ∈ st.offlined_cpus ∩ st.online :=
        Finset.mem_inter.mpr ⟨hx1, hx2⟩
      rw [hInv2] at hmem
      exact absurd hmem (Finset.not_mem_empty x)
    · exact hx3 hx1
  · rw [List.map_append, List.nodup_append]
    refine ⟨hInv3, by simp, ?_⟩
    intro x hx1 hx2
    obtain ⟨e, he, hename⟩ := List.mem_map.mp hx1
    obtain ⟨f, hf2, hfname⟩ := List.mem_map.mp hx2
    rw [List.mem_singleton] at hf2
    subst hf2
    exact hnames e he (hename.trans hfname.symm)
  · intro c2 hc2 d2 hd2 h2r h2d hne
    rcases List.mem_append.mp hc2 with hc2m | hc2m <;>
      rcases List.mem_append.mp hd2 with hd2m | hd2m
    · exact hInv4 c2 hc2m d2 hd2m h2r h2d hne
    · rw [List.mem_singleton] at hd2m
      subst hd2m
      refine disj_of_subsets ?_ hsub hInv2
      rw [hInv1]
      exact claimed_subset_cellUnion hc2m h2r
    · rw [List.mem_singleton] at hc2m
      subst hc2m
      have hsubd : d2.claimed ⊆ st.offlined_cpus := by
        rw [hInv1]
        exact claimed_subset_cellUnion hd2m h2d
      exact disj_of_subsets hsub hsubd (by rw [Finset.inter_comm]; exact hInv2)
    · rw [List.mem_singleton] at hc2m hd2m
      subst hc2m
      subst hd2m
      exact absurd rfl hne

theorem goodStep_destroy_inv (st st2 : DriverState) (a : DestroyArgs)
    (hInv : GoodInv st)
    (h : goodStep st (DriverOp.destroy a) = some st2) : GoodInv st2 := by
  rw [goodStep_destroy_eq] at h
  split at h
  · cases h
  · rename_i c hfind
    by_cases hcond : (jailhouse_cell_destroy st a).hvCalled = true ∧
        a.hvResult = 0 ∧ a.config.cpus.toFinset = c.claimed ∧ c.isRoot = false
    case neg => rw [if_neg hcond] at h; cases h
    rw [if_pos hcond] at h
    injection h with h
    subst h
    obtain ⟨hhv, hv0, hset, hcr⟩ := hcond
    obtain ⟨hp, hk, hc2, hl, he⟩ := destroy_hvCalled_guards st a hhv
    obtain ⟨hInv1, hInv2, hInv3, hInv4⟩ := hInv
    rw [destroy_success_eq st a c hp hk hc2 hl he hfind hv0]
    have hoff := destroy_cpu_loop_offlined a.upRes a.config.cpus
      { st with cells := delete_cell st.cells (truncName a.config.name) }
    have hsub2 := destroy_cpu_loop_online_sub a.upRes a.config.cpus
      { st with cells := delete_cell st.cells (truncName a.config.name) }
    obtain ⟨hfc, hfe, hfm⟩ := destroy_cpu_loop_frame a.upRes a.config.cpus
      { st with cells := delete_cell st.cells (truncName a.config.name) }
    have hcmem := find_cell_mem hfind
    have hdel_ne := delete_cell_name_ne hInv3 hfind
    have hdu := find_delete_union hfind hcr
    have hdisj3 : c.claimed ∩
        cellUnion (delete_cell st.cells (truncName a.config.name)) = ∅ := by
      refine inter_cellUnion_empty ?_
      intro e he2 her
      refine hInv4 c hcmem.1 e ((delete_cell_sublist _ _).subset he2) hcr her ?_
      intro hname
      exact hdel_ne e he2 (hname ▸ hcmem.2)
    have hdisj2 : ∀ y ∈ st.offlined_cpus, y ∉ st.online := by
      intro y hy hy2
      have hmem : y ∈ st.offlined_cpus ∩ st.online := Finset.mem_inter.mpr ⟨hy, hy2⟩
      rw [hInv2] at hmem
      exact absurd hmem (Finset.not_mem_empty y)
    unfold GoodInv
    dsimp only
    rw [hoff, hfc]
    dsimp only
    refine ⟨?_, ?_, ?_, ?_⟩
    · rw [hset, hInv1, hdu]
      ext x
      have hx3 : x ∈ c.claimed →
          x ∉ cellUnion (delete_cell st.cells (truncName a.config.name)) := by
        intro hxa hxb
        have hmem : x ∈ c.claimed ∩
            cellUnion (delete_cell st.cells (truncName a.config.name)) :=
          Finset.mem_inter.mpr ⟨hxa, hxb⟩
        rw [hdisj3] at hmem
        exact absurd hmem (Finset.not_mem_empty x)
      simp only [Finset.mem_sdiff, Finset.mem_union]
      tauto
    · rw [Finset.eq_empty_iff_forall_not_mem]
      intro x hx
      rw [Finset.mem_inter, Finset.mem_sdiff] at hx
      obtain ⟨⟨hx1, hx2⟩, hx3⟩ := hx
      have hx4 := hsub2 hx3
      rw [Finset.mem_union] at hx4
      rcases hx4 with hx4 | hx4
      · exact hdisj2 x hx1 hx4
      · exact hx2 hx4
    · exact hInv3.sublist ((delete_cell_sublist _ _).map Cell.name)
    · intro c2 hc2 d2 hd2 h2r h2d hne
      exact hInv4 c2 ((delete_cell_sublist _ _).subset hc2)
        d2 ((delete_cell_sublist _ _).subset hd2) h2r h2d hne

theorem runOps_inv : ∀ (ops : List DriverOp) (st st2 : DriverState),
    GoodInv st → runOps st ops = some st2 → GoodInv st2 := by
  intro ops
  induction ops with
  | nil =>
    intro st st2 h hr
    unfold runOps at hr
    injection hr with hr
    subst hr
    exact h
  | cons op rest ih =>
    intro st st2 h hr
    unfold runOps at hr
    cases op with
    | create a =>
      cases hstep : goodStep st (DriverOp.create a) with
      | none => rw [hstep] at hr; cases hr
      | some stm =>
        rw [hstep] at hr
        exact ih _ _ (goodStep_create_inv st stm a h hstep) hr
    | destroy a =>
      cases hstep : goodStep st (DriverOp.destroy a) with
      | none => rw [hstep] at hr; cases hr
      | some stm =>
        rw [hstep] at hr
        exact ih _ _ (goodStep_destroy_inv st stm a h hstep) hr

/-- C3: for every Enable or Disable call in which the cross-core barrier
reports at least one nonzero per-core status, the call returns the
aggregated (last-writer-wins) nonzero code, SystemState after the call
equals SystemState before it, Enable leaves no memory mapped, Disable
unmaps nothing, and for Disable the cell registry and the CPU ownership
tracker are unchanged. -/
theorem C3_barrier_atomicity :
    (∀ (st : DriverState) (a : EnableArgs),
      a.copyOk = true → a.lockOk = true → st.enabled = false →
      a.moduleGetOk = true → a.cellAllocOk = true → a.firmwareErr = 0 →
      a.sigOk = true →
      PAGE_ALIGN a.core_size + a.possible_cpus * a.percpu_size + a.configSize
        < a.hvMemSize →
      a.mapOk = true → a.configCopyOk = true →
      (∃ s ∈ a.coreStatuses, s ≠ 0) →
      (jailhouse_enable st a).ret = barrier_code a.coreStatuses ∧
      (jailhouse_enable st a).ret ≠ 0 ∧
      (jailhouse_enable st a).st.enabled = st.enabled ∧
      (jailhouse_enable st a).st.cells = st.cells ∧
      (jailhouse_enable st a).st.offlined_cpus = st.offlined_cpus ∧
      (jailhouse_enable st a).st.online = st.online ∧
      (jailhouse_enable st a).st.mapped = false) ∧
    (∀ (st : DriverState) (a : DisableArgs),
      a.lockOk = true → st.enabled = true →
      (∃ s ∈ a.coreStatuses, s ≠ 0) →
      (jailhouse_disable st a).ret = barrier_code a.coreStatuses ∧
      (jailhouse_disable st a).ret ≠ 0 ∧
      (jailhouse_disable st a).st = st) := by
  constructor
  · intro st a h1 h2 h3 h4 h5 h6 h7 h8 h9 h10 hex
    have hbc := barrier_code_ne_zero hex
    unfold jailhouse_enable
    rw [h1, h2, h3, h4, h5, h6, h7, h9, h10]
    rw [if_neg (not_le.mpr (lt_of_le_of_lt (Nat.mod_le _ _) h8))]
    simp [hbc, h3]
  · intro st a h1 h2 hex
    have hbc := barrier_code_ne_zero hex
    unfold jailhouse_disable
    rw [h1, h2]
    simp [hbc]

theorem C3_witness :
    ((jailhouse_enable sDis e3args).ret = barrier_code e3args.coreStatuses ∧
     (jailhouse_enable sDis e3args).ret ≠ 0 ∧
     (jailhouse_enable sDis e3args).st.enabled = sDis.enabled ∧
     (jailhouse_enable sDis e3args).st.cells = sDis.cells ∧
     (jailhouse_enable sDis e3args).st.offlined_cpus = sDis.offlined_cpus ∧
     (jailhouse_enable sDis e3args).st.online = sDis.online ∧
     (jailhouse_enable sDis e3args).st.mapped = false) ∧
    ((jailhouse_disable s0 d3args).ret = barrier_code d3args.coreStatuses ∧
     (jailhouse_disable s0 d3args).ret ≠ 0 ∧
     (jailhouse_disable s0 d3args).st = s0) :=
  ⟨C3_barrier_atomicity.1 sDis e3args rfl rfl rfl rfl rfl rfl rfl (by decide)
      rfl rfl ⟨5, by decide, by decide⟩,
   C3_barrier_atomicity.2 s0 d3args rfl rfl ⟨7, by decide, by decide⟩⟩

/-- C6: calling Enable while SystemState is already Enabled leaves the
whole state (registry, mapping, tracker, SystemState) exactly as it was,
and, whenever the call gets past copying its argument and acquiring the
lock, it fails with AlreadyEnabled (-EBUSY). -/
theorem C6_already_enabled :
    ∀ (st : DriverState) (a : EnableArgs), st.enabled = true →
      (jailhouse_enable st a).st = st ∧
      (a.copyOk = true → a.lockOk = true →
        (jailhouse_enable st a).ret = -EBUSY) := by
  intro st a he
  unfold jailhouse_enable
  cases hc : a.copyOk <;> cases hl : a.lockOk <;> simp [he]

theorem C6_witness :
    (jailhouse_enable s0 e6args).st = s0 ∧
    (e6args.copyOk = true → e6args.lockOk = true →
      (jailhouse_enable s0 e6args).ret = -EBUSY) :=
  C6_already_enabled s0 e6args rfl

/-- C7: a CreateCell call whose truncated configuration name matches a
currently registered cell fails with NameConflict (-EEXIST), changes no
state, issues no hypervisor call and attempts no CPU withdrawal. -/
theorem C7_name_conflict (st : DriverState) (a : CreateArgs) (c : Cell)
    (hp : a.paramsCopyOk = true) (hk : a.kmallocOk = true)
    (hc : a.configCopyOk = true) (hl : a.lockOk = true)
    (he : st.enabled = true)
    (hmem : c ∈ st.cells) (hname : c.name = truncName a.config.name) :
    (jailhouse_cell_create st a).ret = -EEXIST ∧
    (jailhouse_cell_create st a).st = st ∧
    (jailhouse_cell_create st a).hvCalled = false ∧
    (jailhouse_cell_create st a).downs = [] := by
  have hsome := find_cell_isSome_of_mem hmem hname
  unfold jailhouse_cell_create
  rw [hp, hk, hc, hl, he, hsome]
  simp

theorem C7_witness :
    (jailhouse_cell_create s1 c7args).ret = -EEXIST ∧
    (jailhouse_cell_create s1 c7args).st = s1 ∧
    (jailhouse_cell_create s1 c7args).hvCalled = false ∧
    (jailhouse_cell_create s1 c7args).downs = [] :=
  C7_name_conflict s1 c7args cellA rfl rfl rfl rfl rfl (by decide) (by decide)

/-- C9: DestroyCell fails with NotFound (-ENOENT) and mutates nothing when
the system is enabled but no registered cell has the given name; and when
the hypervisor destroy call fails, DestroyCell returns that error with the
cell fully intact (state unchanged, no partial teardown). -/
theorem C9_destroy_notfound_frame :
    (∀ (st : DriverState) (a : DestroyArgs),
      a.paramsCopyOk = true → a.kmallocOk = true → a.configCopyOk = true →
      a.lockOk = true → st.enabled = true →
      find_cell st.cells (truncName a.config.name) = none →
      (jailhouse_cell_destroy st a).ret = -ENOENT ∧
      (jailhouse_cell_destroy st a).st = st ∧
      (jailhouse_cell_destroy st a).hvCalled = false) ∧
    (∀ (st : DriverState) (a : DestroyArgs) (c : Cell),
      a.paramsCopyOk = true → a.kmallocOk = true → a.configCopyOk = true →
      a.lockOk = true → st.enabled = true →
      find_cell st.cells (truncName a.config.name) = some c →
      a.hvResult ≠ 0 →
      (jailhouse_cell_destroy st a).ret = a.hvResult ∧
      (jailhouse_cell_destroy st a).st = st) := by
  constructor
  · intro st a hp hk hc hl he hfind
    rw [destroy_notfound_eq st a hp hk hc hl he hfind]
    exact ⟨rfl, rfl, rfl⟩
  · intro st a c hp hk hc hl he hfind hv
    rw [destroy_hvfail_eq st a c hp hk hc hl he hfind hv]
    exact ⟨rfl, rfl⟩

theorem C9_witness :
    ((jailhouse_cell_destroy s0 d9aArgs).ret = -ENOENT ∧
     (jailhouse_cell_destroy s0 d9aArgs).st = s0 ∧
     (jailhouse_cell_destroy s0 d9aArgs).hvCalled = false) ∧
    ((jailhouse_cell_destroy s1 d9bArgs).ret = d9bArgs.hvResult ∧
     (jailhouse_cell_destroy s1 d9bArgs).st = s1) :=
  ⟨C9_destroy_notfound_frame.1 s0 d9aArgs rfl rfl rfl rfl rfl (by decide),
   C9_destroy_notfound_frame.2 s1 d9bArgs cellA rfl rfl rfl rfl rfl
     (by decide) (by decide)⟩

/-- C1 counterexample: refutes the claim as stated.  In state s1 the
registered cell cellA has withdrawn CPU 3 (it is in the CPU Ownership
Tracker), and a CreateCell for a new cell claiming CPUs 2 and 3 is rejected
by the hypervisor; after the failed call returns, CPU 3 is no longer in the
tracker, although it was offlined on behalf of a previously registered
cell, so the rollback did not restore only the CPUs withdrawn for the
failed cell. -/
theorem C1_counterexample :
    cellA ∈ s1.cells ∧ cellA.isRoot = false ∧ 3 ∈ cellA.claimed ∧
    3 ∈ s1.offlined_cpus ∧ (3 : Nat) ∈ c1args.config.cpus ∧
    c1args.hvResult < 0 ∧
    (jailhouse_cell_create s1 c1args).ret = -1 ∧
    3 ∉ (jailhouse_cell_create s1 c1args).st.offlined_cpus := by
  decide

/-- C1 (amended): when a CreateCell call that passed the early checks fails
at CPU withdrawal or at the hypervisor create call, and cpu_up succeeds for
every claimed CPU during rollback, the rollback brings online every claimed
CPU that is offline at that point - including CPUs withdrawn for other,
previously registered cells - and removes every claimed CPU from the CPU
Ownership Tracker; the Cell Registry is unchanged and does not contain the
new cell, and the call returns a nonzero error. -/
theorem C1_rollback_overreach (st : DriverState) (a : CreateArgs)
    (hp : a.paramsCopyOk = true) (hk : a.kmallocOk = true)
    (hc : a.configCopyOk = true) (hl : a.lockOk = true)
    (he : st.enabled = true)
    (hf : find_cell st.cells (truncName a.config.name) = none)
    (hi : (processImages a.regions a.images a.junk).2 = false)
    (ha : a.cellAllocOk = true)
    (hfail : (withdraw_loop a.downRes a.config.cpus st
        (processImages a.regions a.images a.junk).1 []).failed = true ∨
      a.hvResult < 0)
    (hup : ∀ cpu ∈ a.config.cpus, a.upRes cpu = 0)
    (hdisj : st.offlined_cpus ∩ st.online = ∅) :
    (jailhouse_cell_create st a).ret ≠ 0 ∧
    (jailhouse_cell_create st a).st.offlined_cpus
        = st.offlined_cpus \ a.config.cpus.toFinset ∧
    (jailhouse_cell_create st a).st.online
        = st.online ∪ a.config.cpus.toFinset ∧
    (jailhouse_cell_create st a).st.cells = st.cells ∧
    find_cell (jailhouse_cell_create st a).st.cells
        (truncName a.config.name) = none := by
  obtain ⟨h1, h2, h3, h4, h5, h6⟩ :=
    create_fail_rollback st a hp hk hc hl he hf hi ha hfail hup hdisj
  exact ⟨h1, h2, h3, h4, by rw [h4]; exact hf⟩

theorem C1_witness :
    (jailhouse_cell_create s1 c1args).ret ≠ 0 ∧
    (jailhouse_cell_create s1 c1args).st.offlined_cpus
        = s1.offlined_cpus \ c1args.config.cpus.toFinset ∧
    (jailhouse_cell_create s1 c1args).st.online
        = s1.online ∪ c1args.config.cpus.toFinset ∧
    (jailhouse_cell_create s1 c1args).st.cells = s1.cells ∧
    find_cell (jailhouse_cell_create s1 c1args).st.cells
        (truncName c1args.config.name) = none :=
  C1_rollback_overreach s1 c1args rfl rfl rfl rfl rfl (by decide) rfl rfl
    (Or.inr (by decide)) (by decide) (by decide)

/-- C2 counterexample: refutes the claim as stated.  In state s1 the
registered cell cellA has withdrawn CPU 3, yet a CreateCell claiming CPUs
2 and 3 does not fail: the already-offline CPU 3 is silently skipped, the
hypervisor accepts, the call returns 0 and the new cell is registered. -/
theorem C2_counterexample :
    cellA ∈ s1.cells ∧ 3 ∈ cellA.claimed ∧ 3 ∈ s1.offlined_cpus ∧
    (3 : Nat) ∈ c2okArgs.config.cpus ∧
    (jailhouse_cell_create s1 c2okArgs).ret = 0 ∧
    (find_cell (jailhouse_cell_create s1 c2okArgs).st.cells
        (truncName c2okArgs.config.name)).isSome = true := by
  decide

/-- C2 (amended): a CreateCell whose claimed CPU set contains a CPU already
withdrawn for an existing registered cell does not fail on that account -
the CPU is skipped because it is not online; the call fails only when the
hypervisor rejects it, and in that case (with cpu_down succeeding on the
online claimed CPUs and cpu_up succeeding during rollback) it returns the
hypervisor error and every CPU the failed cell had withdrawn is restored to
the online pool, together with the already-withdrawn overlapping CPUs. -/
theorem C2_overlap_claim (st : DriverState) (a : CreateArgs)
    (hp : a.paramsCopyOk = true) (hk : a.kmallocOk = true)
    (hc : a.configCopyOk = true) (hl : a.lockOk = true)
    (he : st.enabled = true)
    (hf : find_cell st.cells (truncName a.config.name) = none)
    (hi : (processImages a.regions a.images a.junk).2 = false)
    (ha : a.cellAllocOk = true)
    (hoverlap : ∃ cpu ∈ a.config.cpus, cpu ∈ st.offlined_cpus)
    (hdown : ∀ cpu ∈ a.config.cpus, a.downRes cpu = 0)
    (hv : a.hvResult < 0)
    (hup : ∀ cpu ∈ a.config.cpus, a.upRes cpu = 0)
    (hdisj : st.offlined_cpus ∩ st.online = ∅) :
    (jailhouse_cell_create st a).ret = a.hvResult ∧
    (jailhouse_cell_create st a).st.online
        = st.online ∪ a.config.cpus.toFinset ∧
    (jailhouse_cell_create st a).st.offlined_cpus
        = st.offlined_cpus \ a.config.cpus.toFinset ∧
    (jailhouse_cell_create st a).st.cells = st.cells := by
  have hnf := withdraw_loop_ok_not_failed a.downRes a.config.cpus st
    (processImages a.regions a.images a.junk).1 [] hdown
  rw [create_fail_eq_2 st a hp hk hc hl he hf hi ha hnf hv]
  obtain ⟨hn1, hn2, hn3, hn4, hn5⟩ :=
    rollback_withdraw_net a.downRes a.upRes a.config.cpus st
      (processImages a.regions a.images a.junk).1 [] hup hdisj
  exact ⟨rfl, hn2, hn1, hn3⟩

theorem C2_witness :
    (jailhouse_cell_create s1 c2failArgs).ret = c2failArgs.hvResult ∧
    (jailhouse_cell_create s1 c2failArgs).st.online
        = s1.online ∪ c2failArgs.config.cpus.toFinset ∧
    (jailhouse_cell_create s1 c2failArgs).st.offlined_cpus
        = s1.offlined_cpus \ c2failArgs.config.cpus.toFinset ∧
    (jailhouse_cell_create s1 c2failArgs).st.cells = s1.cells :=
  C2_overlap_claim s1 c2failArgs rfl rfl rfl rfl rfl (by decide) rfl rfl
    ⟨3, by decide, by decide⟩ (by decide) (by decide) (by decide) (by decide)

/-- C4: evaluation of the code at the failing input.  A CreateCell call
with zero preload images that claims only the offline CPU 5, with a free
name and a hypervisor create call that succeeds (id 7), creates and
registers the cell (the hypercall was issued), yet returns the
indeterminate initial value of the uninitialized local err (-99 here)
instead of 0: the local err of jailhouse_cell_create is assigned only by
copy_from_user failures, load_image calls and cpu_down calls, none of
which execute on this path. -/
theorem C4_success_returns_junk :
    (jailhouse_cell_create s0 c4args).hvCalled = true ∧
    0 ≤ c4args.hvResult ∧
    c4args.images = [] ∧
    (find_cell (jailhouse_cell_create s0 c4args).st.cells
        (truncName c4args.config.name)).isSome = true ∧
    c4args.junk = -99 ∧
    (jailhouse_cell_create s0 c4args).ret = -99 := by
  decide

/-- C10: for every DestroyCell call that succeeds (with cpu_up succeeding),
the set of CPUs brought back online is exactly the intersection of the CPU
set of the caller-supplied configuration blob with the offlined set of the
CPU Ownership Tracker, and the tracker loses exactly the supplied CPU set -
the CPU set recorded at creation time is never consulted.  The final
conjunct exhibits a concrete successful destroy whose supplied CPU set
omits CPU 3 of the destroyed cell, leaving CPU 3 offlined forever. -/
theorem C10_destroy_supplied_config (st : DriverState) (a : DestroyArgs)
    (c : Cell)
    (hp : a.paramsCopyOk = true) (hk : a.kmallocOk = true)
    (hc : a.configCopyOk = true) (hl : a.lockOk = true)
    (he : st.enabled = true)
    (hfind : find_cell st.cells (truncName a.config.name) = some c)
    (hv : a.hvResult = 0)
    (hup : ∀ cpu ∈ a.config.cpus, a.upRes cpu = 0) :
    ((jailhouse_cell_destroy st a).ret = 0 ∧
     (jailhouse_cell_destroy st a).st.online
        = st.online ∪ (a.config.cpus.toFinset ∩ st.offlined_cpus) ∧
     (jailhouse_cell_destroy st a).st.offlined_cpus
        = st.offlined_cpus \ a.config.cpus.toFinset ∧
     (jailhouse_cell_destroy st a).st.cells
        = delete_cell st.cells (truncName a.config.name) ∧
     (jailhouse_cell_destroy st a).st.enabled = st.enabled ∧
     (jailhouse_cell_destroy st a).st.mapped = st.mapped) ∧
    ((jailhouse_cell_destroy s10 d10mismatchArgs).ret = 0 ∧
     3 ∈ Cell.claimed ⟨['d'], 2, {2, 3}, false⟩ ∧
     find_cell (jailhouse_cell_destroy s10 d10mismatchArgs).st.cells
        (truncName d10mismatchArgs.config.name) = none ∧
     3 ∈ (jailhouse_cell_destroy s10 d10mismatchArgs).st.offlined_cpus) := by
  constructor
  · rw [destroy_success_eq st a c hp hk hc hl he hfind hv]
    have honline := destroy_cpu_loop_online_ok a.upRes a.config.cpus
      { st with cells := delete_cell st.cells (truncName a.config.name) } hup
    have hoff := destroy_cpu_loop_offlined a.upRes a.config.cpus
      { st with cells := delete_cell st.cells (truncName a.config.name) }
    obtain ⟨hfc, hfe, hfm⟩ := destroy_cpu_loop_frame a.upRes a.config.cpus
      { st with cells := delete_cell st.cells (truncName a.config.name) }
    exact ⟨rfl, honline, hoff, hfc, hfe, hfm⟩
  · decide

theorem C10_witness :
    ((jailhouse_cell_destroy s1 d10args).ret = 0 ∧
     (jailhouse_cell_destroy s1 d10args).st.online
        = s1.online ∪ (d10args.config.cpus.toFinset ∩ s1.offlined_cpus) ∧
     (jailhouse_cell_destroy s1 d10args).st.offlined_cpus
        = s1.offlined_cpus \ d10args.config.cpus.toFinset ∧
     (jailhouse_cell_destroy s1 d10args).st.cells
        = delete_cell s1.cells (truncName d10args.config.name) ∧
     (jailhouse_cell_destroy s1 d10args).st.enabled = s1.enabled ∧
     (jailhouse_cell_destroy s1 d10args).st.mapped = s1.mapped) ∧
    ((jailhouse_cell_destroy s10 d10mismatchArgs).ret = 0 ∧
     3 ∈ Cell.claimed ⟨['d'], 2, {2, 3}, false⟩ ∧
     find_cell (jailhouse_cell_destroy s10 d10mismatchArgs).st.cells
        (truncName d10mismatchArgs.config.name) = none ∧
     3 ∈ (jailhouse_cell_destroy s10 d10mismatchArgs).st.offlined_cpus) :=
  C10_destroy_supplied_config s1 d10args cellA rfl rfl rfl rfl rfl
    (by decide) rfl (by decide)

theorem disable_ret_zero (st : DriverState) (a : DisableArgs)
    (h : (jailhouse_disable st a).ret = 0) :
    (jailhouse_disable st a).st.offlined_cpus = ∅ ∧
    (jailhouse_disable st a).st.cells = [] ∧
    (jailhouse_disable st a).st.enabled = false := by
  unfold jailhouse_disable at h ⊢
  by_cases hl : a.lockOk = true
  case neg =>
    rw [Bool.not_eq_true] at hl
    rw [hl] at h
    simp [EINTR] at h
  rw [hl] at h ⊢
  by_cases he : st.enabled = true
  case neg =>
    rw [Bool.not_eq_true] at he
    rw [he] at h
    simp [EINVAL] at h
  rw [he] at h ⊢
  by_cases hb : barrier_code a.coreStatuses = 0
  · simp [hb]
  · simp [hb] at h

/-- C5 counterexample: refutes the claim as stated, in two ways.  First,
with a firmware header declaring zero core and per-CPU sizes, the size
check passes for an 8 KiB reserved region even though the firmware blob
itself is 40960 bytes: the enable proceeds, copies 40960 bytes into the
8192-byte region, computes the zero-fill length by a wrapping size_t
subtraction, and succeeds, so the check does not validate that the loaded
image fits and the copy does not lie within the region.  Second, the check
itself is computed in wrapping unsigned long arithmetic: a header declaring
core_size 2^64 - 1 makes PAGE_ALIGN wrap to 0, so the check passes for the
same 8 KiB region although the header demands more memory than the region
holds, and the enable maps the region and proceeds instead of failing with
InsufficientMemory. -/
theorem C5_counterexample :
    ((jailhouse_enable sDis e5badArgs).copyLen = some e5badArgs.fwSize ∧
     e5badArgs.hvMemSize < e5badArgs.fwSize ∧
     (jailhouse_enable sDis e5badArgs).fillLen = some (U64 - 32768) ∧
     (jailhouse_enable sDis e5badArgs).ret = 0 ∧
     (jailhouse_enable sDis e5badArgs).st.enabled = true) ∧
    (e5wrapArgs.core_size = U64 - 1 ∧
     e5wrapArgs.hvMemSize < e5wrapArgs.core_size ∧
     PAGE_ALIGN e5wrapArgs.core_size = 0 ∧
     (jailhouse_enable sDis e5wrapArgs).ret = 0 ∧
     (jailhouse_enable sDis e5wrapArgs).st.enabled = true ∧
     (jailhouse_enable sDis e5wrapArgs).copyLen = some e5wrapArgs.fwSize) := by
  decide

/-- C5 (amended): the Enable size check compares the reserved-region size
against the page-aligned core size plus possible CPUs times the per-CPU
size plus the serialized configuration size, all taken from the firmware
header and computed in wrapping 64-bit unsigned arithmetic - not against
the loaded image length; when the region is not strictly larger than that
wrapped value, the call fails with -EINVAL without mapping, copying or
filling anything.  When the check passes because the header sums are below
the region size without overflowing, and additionally the header is
faithful in that the blob length is at most the page-aligned core size,
the image copy and the zero-fill of the remainder both lie within the
region. -/
theorem C5_size_validation :
    (∀ (st : DriverState) (a : EnableArgs),
      a.copyOk = true → a.lockOk = true → st.enabled = false →
      a.moduleGetOk = true → a.cellAllocOk = true → a.firmwareErr = 0 →
      a.sigOk = true →
      a.hvMemSize ≤ (PAGE_ALIGN a.core_size + a.possible_cpus * a.percpu_size
          + a.configSize) % U64 →
      (jailhouse_enable st a).ret = -EINVAL ∧
      (jailhouse_enable st a).st = st ∧
      (jailhouse_enable st a).copyLen = none ∧
      (jailhouse_enable st a).fillLen = none) ∧
    (∀ (st : DriverState) (a : EnableArgs),
      a.copyOk = true → a.lockOk = true → st.enabled = false →
      a.moduleGetOk = true → a.cellAllocOk = true → a.firmwareErr = 0 →
      a.sigOk = true →
      PAGE_ALIGN a.core_size + a.possible_cpus * a.percpu_size + a.configSize
          < a.hvMemSize →
      a.mapOk = true →
      a.fwSize ≤ PAGE_ALIGN a.core_size →
      a.hvMemSize < U64 →
      (jailhouse_enable st a).copyLen = some a.fwSize ∧
      (jailhouse_enable st a).fillLen = some (a.hvMemSize - a.fwSize) ∧
      a.fwSize + (a.hvMemSize - a.fwSize) ≤ a.hvMemSize) := by
  constructor
  · intro st a h1 h2 h3 h4 h5 h6 h7 h8
    unfold jailhouse_enable
    rw [h1, h2, h3, h4, h5, h6, h7]
    rw [if_pos h8]
    simp
  · intro st a h1 h2 h3 h4 h5 h6 h7 h8 h9 h10 h11
    have hfw : a.fwSize ≤ a.hvMemSize := by omega
    have hU : U64 = 18446744073709551616 := by norm_num [U64]
    have hsub : subU64 a.hvMemSize a.fwSize = a.hvMemSize - a.fwSize := by
      unfold subU64
      rw [hU] at h11 ⊢
      omega
    unfold jailhouse_enable
    rw [h1, h2, h3, h4, h5, h6, h7, h9]
    rw [if_neg (not_le.mpr (lt_of_le_of_lt (Nat.mod_le _ _) h8))]
    refine ⟨?_, ?_, by omega⟩ <;>
      cases hcc : a.configCopyOk <;>
      by_cases hbb : barrier_code a.coreStatuses = 0 <;>
      simp [hbb, hsub]

/-- C8 counterexample: refutes the claim as stated.  From the post-enable
state s0 (root cell only, empty tracker), a single CreateCell claiming only
CPU 5 - which is offline - succeeds (the offline CPU is skipped rather than
withdrawn, the hypervisor accepts, the call returns 0 and the cell is
registered), after which the set of offlined-by-cell CPUs (empty) is not
the union of the CPU sets owned by the registered non-root cells (which is
the set containing 5). -/
theorem C8_counterexample :
    (jailhouse_cell_create s0 c8badArgs).ret = 0 ∧
    (jailhouse_cell_create s0 c8badArgs).hvCalled = true ∧
    C8Inv s0 ∧
    ¬ C8Inv (jailhouse_cell_create s0 c8badArgs).st := by
  decide

/-- C8 (amended): for any sequence of CreateCell and DestroyCell calls that
all succeed, in which every CPU claimed by a created cell is online at
creation time and every DestroyCell supplies the creation-time
configuration of a non-root cell, starting from a state satisfying the
conservation invariant (as the post-enable state does), the set of CPUs
recorded as offlined-by-cell equals exactly the union of the CPU sets owned
by the currently registered non-root cells; and after any successful
Disable the tracker is empty, every registered cell has been removed, and
SystemState is Disabled. -/
theorem C8_cpu_conservation (st : DriverState) (ops : List DriverOp)
    (st2 : DriverState) (hInv : GoodInv st)
    (hrun : runOps st ops = some st2) :
    C8Inv st2 ∧
    ∀ a : DisableArgs, (jailhouse_disable st2 a).ret = 0 →
      (jailhouse_disable st2 a).st.offlined_cpus = ∅ ∧
      (jailhouse_disable st2 a).st.cells = [] ∧
      (jailhouse_disable st2 a).st.enabled = false := by
  have hInv2 := runOps_inv ops st st2 hInv hrun
  exact ⟨hInv2.1, fun a h => disable_ret_zero st2 a h⟩

theorem C8_witness :
    GoodInv s0 ∧
    runOps s0 [DriverOp.create c8args] = some c8end ∧
    C8Inv c8end ∧
    ((jailhouse_disable c8end c8disArgs).st.offlined_cpus = ∅ ∧
     (jailhouse_disable c8end c8disArgs).st.cells = [] ∧
     (jailhouse_disable c8end c8disArgs).st.enabled = false) :=
  ⟨by decide, by decide,
   (C8_cpu_conservation s0 [DriverOp.create c8args] c8end (by decide)
     (by decide)).1,
   (C8_cpu_conservation s0 [DriverOp.create c8args] c8end (by decide)
     (by decide)).2 c8disArgs (by decide)⟩

theorem C5_witness :
    ((jailhouse_enable sDis e5smallArgs).ret = -EINVAL ∧
     (jailhouse_enable sDis e5smallArgs).st = sDis ∧
     (jailhouse_enable sDis e5smallArgs).copyLen = none ∧
     (jailhouse_enable sDis e5smallArgs).fillLen = none) ∧
    ((jailhouse_enable sDis e5okArgs).copyLen = some e5okArgs.fwSize ∧
     (jailhouse_enable sDis e5okArgs).fillLen
        = some (e5okArgs.hvMemSize - e5okArgs.fwSize) ∧
     e5okArgs.fwSize + (e5okArgs.hvMemSize - e5okArgs.fwSize)
        ≤ e5okArgs.hvMemSize) :=
  ⟨C5_size_validation.1 sDis e5smallArgs rfl rfl rfl rfl rfl rfl rfl
     (by decide),
   C5_size_validation.2 sDis e5okArgs rfl rfl rfl rfl rfl rfl rfl
     (by decide) rfl (by decide) (by decide)⟩
